import Mathlib

/-!
Shallow embedding of the csemAA chart core:

* `src/lib/UPlot.utils` (found in `src/src/lib/uplot-wheel-zoom-plugin.tsx` after the
  document separator): `decimateData`, `paddedRange`, `processTimestamps`.
* `src/src/lib/uplot-wheel-zoom-plugin.tsx`: `clamp`, the wheel-zoom handler and the
  middle-button pan handler (`onmove`).
* `src/src/components/PositionPlot.tsx`: `guardedRange` and the `cursor.dataIdx`
  hover hit-resolution.
* `src/unnamed/part_000` (TimeSeriesPlot): `getFilteredData`, `processChartData`.

Numbers are modelled as exact rationals (`ℚ`): the source computes with JS doubles,
and every claim under scrutiny is about the ideal real-number behaviour of the
arithmetic.  JS `Date` parsing is external to the repository, so it is a parameter
`parse : String → Option ℚ` returning the epoch value in milliseconds, `none` when
`new Date(s).getTime()` is `NaN`.
-/

namespace CsemAA

/-- JS truthiness of an optional string (`if (d.datetime)`): an absent field and the
empty string are falsy. -/
def jsStrTruthy : Option String → Bool
  | none => false
  | some s => s ≠ ""

/-- A data row as consumed by the chart pipeline.  Only the fields the core reads are
modelled: the `datetime` string field and the one plotted column (`dataColumn`).
`value = none` models a row where the column is absent (`undefined`);
`value = some none` models a defined but non-numeric column value;
`value = some (some q)` models a numeric column value. -/
structure DataRow where
  datetime : Option String
  value : Option (Option ℚ)
deriving DecidableEq

/-- One row of the timestamp extraction in `processTimestamps`:
`d.datetime ? (isNaN(new Date(d.datetime).getTime()) ? null : getTime()[/1000]) : null`. -/
def toTimestamp (parse : String → Option ℚ) (convertToSeconds : Bool) (r : DataRow) :
    Option ℚ :=
  match r.datetime with
  | some s =>
    if s = "" then none
    else
      match parse s with
      | some ms => some (if convertToSeconds then ms / 1000 else ms)
      | none => none
  | none => none

/-- The `.filter(Boolean)` step applied to one mapped entry: `null` and the number `0`
are falsy and get dropped. -/
def jsTimestampKeep : Option ℚ → Option ℚ
  | none => none
  | some q => if q = 0 then none else some q

/-- The step `data.map(d => ...).filter(Boolean)` from `processTimestamps`, fused into one
`filterMap` (mapping a row to `none` exactly when the mapped entry is falsy). -/
def extractTimestamps (parse : String → Option ℚ) (convertToSeconds : Bool)
    (data : List DataRow) : List ℚ :=
  data.filterMap (fun r => jsTimestampKeep (toTimestamp parse convertToSeconds r))

/-- Result of `processTimestamps`.  The source reports the empty-input failure through
an optional `setError` callback and a sentinel result; the callback payload is the
`error` field here. -/
structure TimestampsResult where
  timeIndices : List ℕ
  sortedTimestamps : List ℚ
  error : Option String
deriving DecidableEq

/-- The sorting half of `processTimestamps`, operating on the already extracted
timestamps:
`timestamps.map((_t, i) => i).sort((a, b) => timestamps[a] - timestamps[b])` followed by
`timeIndices.map(i => timestamps[i])`.  JS `Array.prototype.sort` is a stable sort and
the comparator orders ascending by value, which is exactly a stable insertion sort with
the relation `timestamps[a] ≤ timestamps[b]`. -/
def sortTimestamps (timestamps : List ℚ) : TimestampsResult :=
  if timestamps.length = 0 then
    { timeIndices := []
      sortedTimestamps := []
      error := some "No valid timestamps found in the data" }
  else
    let timeIndices :=
      List.insertionSort (fun a b => timestamps.getD a 0 ≤ timestamps.getD b 0)
        (List.range timestamps.length)
    { timeIndices := timeIndices
      sortedTimestamps := timeIndices.map (fun i => timestamps.getD i 0)
      error := none }

/-- Function `processTimestamps` from `src/lib/UPlot.utils`. -/
def processTimestamps (parse : String → Option ℚ) (convertToSeconds : Bool)
    (data : List DataRow) : TimestampsResult :=
  sortTimestamps (extractTimestamps parse convertToSeconds data)

/-- The stride `Math.ceil(data.length / maxPoints)` for a positive `maxPoints`. -/
def skipFactor (len maxPoints : ℕ) : ℕ := (len + maxPoints - 1) / maxPoints

/-- Function `decimateData` from `src/lib/UPlot.utils`:
`data.length <= maxPoints ? data : data.filter((_, i) => i % skipFactor === 0)`. -/
def decimateData {α : Type} (data : List α) (maxPoints : ℕ) : List α :=
  if data.length ≤ maxPoints then data
  else
    (data.enum.filter (fun p => p.1 % skipFactor data.length maxPoints = 0)).map Prod.snd

/-- Function `getFilteredData` from the TimeSeriesPlot component: keep rows with a truthy
`datetime` and a defined plotted column; when both ends of the date-range filter are
set, range-filter (`new Date(d.datetime).getTime()` compared in milliseconds, `NaN`
comparisons are false); otherwise decimate when over `MAX_POINTS`. -/
def getFilteredData (parse : String → Option ℚ) (data : List DataRow)
    (minDate maxDate : Option ℚ) (maxPoints : ℕ) : List DataRow :=
  let validData := data.filter (fun d => jsStrTruthy d.datetime && d.value.isSome)
  match minDate, maxDate with
  | some mn, some mx =>
    validData.filter (fun d =>
      match d.datetime with
      | none => false
      | some s =>
        match parse s with
        | some ts => decide (mn ≤ ts) && decide (ts ≤ mx)
        | none => false)
  | _, _ =>
    if maxPoints < validData.length then decimateData validData maxPoints else validData

/-- Function `processChartData` from the TimeSeriesPlot component.  The interpolated error
messages are modelled by fixed strings (the TypeScript interpolates the column name).
The source signals failure by `setError(...)` plus returning `null`; that is an
`Except.error` here. -/
def processChartData (parse : String → Option ℚ) (data : List DataRow)
    (minDate maxDate : Option ℚ) (maxPoints : ℕ) :
    Except String (List ℚ × List (Option ℚ)) :=
  let filteredData := getFilteredData parse data minDate maxDate maxPoints
  if filteredData.length = 0 then
    .error "No valid data points found with both datetime and dataColumn values in selected range"
  else
    let r := processTimestamps parse true filteredData
    let values := r.timeIndices.map (fun i =>
      match (filteredData.getD i ⟨none, none⟩).value with
      | some (some q) => some q
      | _ => none)
    let allValues := values.filterMap id
    if allValues.length = 0 then
      .error "No valid dataColumn values found in the data in selected range"
    else
      .ok (r.sortedTimestamps, values)

/-- Function `paddedRange` from `src/lib/UPlot.utils`. -/
def paddedRange (mn mx : Option ℚ) (axis : ℕ) : ℚ × ℚ :=
  if mn = none ∨ mx = none ∨ mn = mx then
    if axis = 1 then (-100, 0) else (0, 100)
  else
    let a := mn.getD 0
    let b := mx.getD 0
    let range := b - a
    let padding := range * (5 / 100)
    (a - padding, b + padding)

/-- Function `guardedRange` from `PositionPlot.tsx`.  `Math.abs(min) || 100` is JS truthiness:
the fallback constant 100 is used exactly when `|min| = 0`. -/
def guardedRange (mn mx : Option ℚ) : ℚ × ℚ :=
  if mx = mn then
    match mn with
    | none => (0, 100)
    | some v =>
      let delta := if |v| = 0 then 100 else |v|
      (v - delta, v + delta)
  else paddedRange mn mx 0

/-! ### Viewport controller: `wheelZoomPlugin` -/

/-- One axis of the uPlot scale state: `{min, max}`. -/
structure Scale where
  min : ℚ
  max : ℚ
deriving DecidableEq

/-- The two scales mutated by the plugin. -/
structure Scales where
  x : Scale
  y : Scale
deriving DecidableEq

/-- Values captured once in the `ready` hook of the plugin: the initial full-extent scales
(`xMin .. yMax`), and whether the y scale has the log-style distribution
(`u.scales.y.distr === 3`). -/
structure ReadyCtx where
  xMin : ℚ
  xMax : ℚ
  yMin : ℚ
  yMax : ℚ
  distr3 : Bool
deriving DecidableEq

/-- The value `xRange` captured in `ready`. -/
def ReadyCtx.xRange (c : ReadyCtx) : ℚ := c.xMax - c.xMin

/-- The value `yRange` captured in `ready`. -/
def ReadyCtx.yRange (c : ReadyCtx) : ℚ := c.yMax - c.yMin

/-- The constant `xPaddingFactor = yPaddingFactor = 0.01` from the `ready` hook. -/
def padFactor : ℚ := 1 / 100

/-- The `clamp` helper of `wheelZoomPlugin`. -/
def clamp (nRange nMin nMax fRange fMin fMax : ℚ) : ℚ × ℚ :=
  if nRange > fRange then (fMin, fMax)
  else if nMin < fMin then (fMin, fMin + nRange)
  else if nMax > fMax then (fMax - nRange, fMax)
  else (nMin, nMax)

/-- The per-axis body of the wheel handler (the source repeats this block once for x
and once for y): scale the old range by `factor` (zoom in, `e.deltaY < 0`) or by
`1/factor` (zoom out), place the data value of the cursor `v` at the same fractional
position `pct` of the new range, then clamp. -/
def axisZoom (factor : ℚ) (zoomIn : Bool) (oMin oMax pct v fRange fMin fMax : ℚ) :
    ℚ × ℚ :=
  let oRange := oMax - oMin
  let nRange := if zoomIn then oRange * factor else oRange / factor
  let nMin := v - pct * nRange
  let nMax := nMin + nRange
  clamp nRange nMin nMax fRange fMin fMax

/-- One wheel event of the scroll-zoom handler.  `zoomIn` is `e.deltaY < 0`;
`leftPct`/`btmPct` are the fractional pixel position of the cursor and `xVal`/`yVal` its
data coordinates (`u.posToVal`), all captured from the event.  The x axis is clamped
against the padded initial extent, the y axis against the unpadded one, exactly as in
the source. -/
def wheelZoom (factor : ℚ) (c : ReadyCtx) (s : Scales)
    (leftPct btmPct xVal yVal : ℚ) (zoomIn : Bool) : Scales :=
  let px := axisZoom factor zoomIn s.x.min s.x.max leftPct xVal c.xRange
    (c.xMin - padFactor * c.xRange) (c.xMax + padFactor * c.xRange)
  let py := axisZoom factor zoomIn s.y.min s.y.max btmPct yVal c.yRange c.yMin c.yMax
  { x := { min := px.1, max := px.2 }, y := { min := py.1, max := py.2 } }

/-- The wheel handler commits both `setScale` calls inside one `u.batch(() => ...)`,
so a single state is published per wheel event. -/
def wheelZoomPublished (factor : ℚ) (c : ReadyCtx) (s : Scales)
    (leftPct btmPct xVal yVal : ℚ) (zoomIn : Bool) : List Scales :=
  [wheelZoom factor c s leftPct btmPct xVal yVal zoomIn]

/-- Values captured at `mousedown` of a drag-pan gesture: the scales at gesture start
and the units-per-pixel factors. -/
structure GestureStart where
  scXMin0 : ℚ
  scXMax0 : ℚ
  scYMin0 : ℚ
  scYMax0 : ℚ
  xUnitsPerPx : ℚ
  yUnitsPerPx : ℚ
deriving DecidableEq

/-- The `1e-20` lower bound used for a log-distribution y axis in `onmove`. -/
def panEps : ℚ := 1 / 10 ^ 20

/-- The x-axis guard of `onmove`:
`newXMin >= xMinLimit - xPaddingFactor * xRange && newXMax <= xMaxLimit + xPaddingFactor * xRange`. -/
def panXOk (c : ReadyCtx) (nx : Scale) : Prop :=
  c.xMin - padFactor * c.xRange ≤ nx.min ∧ nx.max ≤ c.xMax + padFactor * c.xRange

/-- The y-axis guard of `onmove`; when `u.scales.y.distr === 3` the additional
`newYMin > 1e-20` check applies. -/
def panYOk (c : ReadyCtx) (ny : Scale) : Prop :=
  if c.distr3 then
    panEps < ny.min ∧ c.yMin - padFactor * c.yRange ≤ ny.min ∧
      ny.max ≤ c.yMax + padFactor * c.yRange
  else
    c.yMin - padFactor * c.yRange ≤ ny.min ∧ ny.max ≤ c.yMax + padFactor * c.yRange

instance (c : ReadyCtx) (nx : Scale) : Decidable (panXOk c nx) := by
  unfold panXOk; infer_instance

instance (c : ReadyCtx) (ny : Scale) : Decidable (panYOk c ny) := by
  unfold panYOk; exact if h : c.distr3 then by simp [h]; infer_instance
    else by simp [h]; infer_instance

/-- The candidate scales computed by `onmove` from the gesture-start scales and the
accumulated pixel deltas: `newXMin = scXMin0 - dx`, etc. -/
def panTargets (g : GestureStart) (dxPix dyPix : ℚ) : Scale × Scale :=
  let dx := g.xUnitsPerPx * dxPix
  let dy := g.yUnitsPerPx * dyPix
  (⟨g.scXMin0 - dx, g.scXMax0 - dx⟩, ⟨g.scYMin0 - dy, g.scYMax0 - dy⟩)

/-- The final scale state after one `onmove` event: each axis is updated only when its
guard passes, otherwise it keeps its current value. -/
def panMove (c : ReadyCtx) (g : GestureStart) (cur : Scales) (dxPix dyPix : ℚ) :
    Scales :=
  let t := panTargets g dxPix dyPix
  { x := if panXOk c t.1 then t.1 else cur.x
    y := if panYOk c t.2 then t.2 else cur.y }

/-- The sequence of states published by one `onmove` event.  The two `setScale` calls
are NOT wrapped in `u.batch`, so each passing guard publishes (and redraws on) its own
intermediate state: first the x update alone, then the combined update. -/
def panMovePublished (c : ReadyCtx) (g : GestureStart) (cur : Scales)
    (dxPix dyPix : ℚ) : List Scales :=
  let t := panTargets g dxPix dyPix
  let s1 := if panXOk c t.1 then { cur with x := t.1 } else cur
  let s2 := if panYOk c t.2 then { s1 with y := t.2 } else s1
  (if panXOk c t.1 then [s1] else []) ++ (if panYOk c t.2 then [s2] else [])

/-- One drag-pan gesture: the units-per-pixel factors captured at `mousedown` and the
cumulative pixel deltas of its `mousemove` events. -/
structure PanGesture where
  xUnitsPerPx : ℚ
  yUnitsPerPx : ℚ
  moves : List (ℚ × ℚ)

/-- Running one gesture: `mousedown` snapshots the current scales, then each
`mousemove` applies `panMove` against that snapshot. -/
def runGesture (c : ReadyCtx) (s : Scales) (gst : PanGesture) : Scales :=
  let g : GestureStart :=
    ⟨s.x.min, s.x.max, s.y.min, s.y.max, gst.xUnitsPerPx, gst.yUnitsPerPx⟩
  gst.moves.foldl (fun cur m => panMove c g cur m.1 m.2) s

/-- One drag gesture on a non-x axis element (the `init`-hook `mousedown` handler for
`axisEls[i]`, `i > 0`): `mousedown` snapshots the `min`/`max` of that scale (here the
y scale) and computes `unitsPerPx = (max - min) / heightPx` with
`heightPx = u.bbox.height / uPlot.pxRatio`; every `mousemove` then calls `setScale`
with `min = shiftKey ? min - shiftyBy : min + shiftyBy`, `max = max + shiftyBy` where
`shiftyBy = dy * unitsPerPx` — with NO bound guard and no `1e-20` check. -/
def runAxisDrag (s : Scales) (heightPx : ℚ) (moves : List (ℚ × Bool)) : Scales :=
  let min0 := s.y.min
  let max0 := s.y.max
  let unitsPerPx := (max0 - min0) / heightPx
  moves.foldl
    (fun cur m =>
      let shiftyBy := m.1 * unitsPerPx
      { cur with
          y := { min := if m.2 then min0 - shiftyBy else min0 + shiftyBy
                 max := max0 + shiftyBy } })
    s

/-- A pan gesture of the plugin is either a middle-button drag over the plot (the
guarded `onmove` handler) or a drag on a non-x axis element (the unguarded axis-drag
handler). -/
inductive PanEvent where
  | drag (gst : PanGesture)
  | axisDrag (heightPx : ℚ) (moves : List (ℚ × Bool))

/-- Whether a pan event is a middle-button (guarded) drag. -/
def PanEvent.isDrag : PanEvent → Bool
  | .drag _ => true
  | .axisDrag _ _ => false

/-- Running one pan gesture of either kind. -/
def runPanEvent (c : ReadyCtx) (s : Scales) : PanEvent → Scales
  | .drag gst => runGesture c s gst
  | .axisDrag heightPx moves => runAxisDrag s heightPx moves

/-- Running a sequence of pan gestures. -/
def runPanEvents (c : ReadyCtx) (s : Scales) (l : List PanEvent) : Scales :=
  l.foldl (runPanEvent c) s

/-! ### Hover hit-resolution: `cursor.dataIdx` in `PositionPlot.tsx` -/

/-- A box registered into the quadtree for one drawn marker
(`new QuadTree(lft, top, wid, hgt, 0, seriesIdx, dataIdx)`). -/
structure QTItem where
  x : ℚ
  y : ℚ
  w : ℚ
  h : ℚ
  seriesIndex : ℕ
  dataIndex : ℕ
deriving DecidableEq

/-- Modelled from the spec: `pointWithin` is defined in `src/lib/quadtree.ts`, which is
not included under `src/`; per the spec a point hits a box iff it lies within the box
bounds, inclusive of edges.  The source calls it as
`pointWithin(cx, cy, qt.x, qt.y, qt.x + qt.w, qt.y + qt.h)`. -/
def pointWithin (px py lt top rgt btm : ℚ) : Prop :=
  lt ≤ px ∧ px ≤ rgt ∧ top ≤ py ∧ py ≤ btm

instance (px py lt top rgt btm : ℚ) : Decidable (pointWithin px py lt top rgt btm) := by
  unfold pointWithin; infer_instance

/-- Squared Euclidean distance from the cursor to the centre of a candidate box
(`dx*dx + dy*dy` in the source, before the `Math.sqrt`). -/
def distSq (cx cy : ℚ) (q : QTItem) : ℚ :=
  let ocx := q.x + q.w / 2
  let ocy := q.y + q.h / 2
  (ocx - cx) * (ocx - cx) + (ocy - cy) * (ocy - cy)

/-- The source compares real distances: `d <= qt.w / 2` with `d = √distSq ≥ 0`.  Over
the rationals this is expressed square-free: it holds iff `0 ≤ qt.w` and
`4·distSq ≤ qt.w²`. -/
def withinRadius (cx cy : ℚ) (q : QTItem) : Prop :=
  0 ≤ q.w ∧ 4 * distSq cx cy q ≤ q.w * q.w

instance (cx cy : ℚ) (q : QTItem) : Decidable (withinRadius cx cy q) := by
  unfold withinRadius; infer_instance

/-- The whole acceptance test of the `dataIdx` visitor for one candidate, ignoring the
running minimum: cursor inside the box and distance within the marker radius. -/
def hoverAccept (cx cy : ℚ) (q : QTItem) : Prop :=
  pointWithin cx cy q.x q.y (q.x + q.w) (q.y + q.h) ∧ withinRadius cx cy q

instance (cx cy : ℚ) (q : QTItem) : Decidable (hoverAccept cx cy q) := by
  unfold hoverAccept; infer_instance

/-- One visitor step of the `qtRef.current?.get(cx, cy, 1, 1, qt => ...)` loop.  The
state is the current best candidate paired with its squared distance (`none` models
`minDist = Infinity`); `d < minDist` becomes `d2 < bd` (squaring is monotone on
nonnegative reals). -/
def hoverStep (cx cy : ℚ) (st : Option (QTItem × ℚ)) (q : QTItem) :
    Option (QTItem × ℚ) :=
  if pointWithin cx cy q.x q.y (q.x + q.w) (q.y + q.h) then
    let d2 := distSq cx cy q
    match st with
    | none => if withinRadius cx cy q then some (q, d2) else none
    | some (b, bd) =>
      if withinRadius cx cy q ∧ d2 < bd then some (q, d2) else some (b, bd)
  else st

/-- Hit resolution over the candidate boxes the quadtree query visits, in traversal
order: the `minDist/hoverPointRef` fold of `cursor.dataIdx`, returning the final
`hoverPointRef.current`. -/
def resolveHover (cx cy : ℚ) (cands : List QTItem) : Option QTItem :=
  (cands.foldl (hoverStep cx cy) none).map Prod.fst

/-! ### Spec-side auxiliary definitions -/

/-- The pan-bound invariant maintained by `onmove`: both axes stay within the initial
extents padded by the 1% tolerance, and on a log-distribution y axis the minimum stays
strictly above `1e-20`. -/
def panInv (c : ReadyCtx) (s : Scales) : Prop :=
  c.xMin - padFactor * c.xRange ≤ s.x.min ∧
  s.x.max ≤ c.xMax + padFactor * c.xRange ∧
  c.yMin - padFactor * c.yRange ≤ s.y.min ∧
  s.y.max ≤ c.yMax + padFactor * c.yRange ∧
  (c.distr3 = true → panEps < s.y.min)

/-- The candidates a hover query accepts: cursor within the box and within the marker
radius, in traversal order. -/
def hoverCandidates (cx cy : ℚ) (cands : List QTItem) : List QTItem :=
  cands.filter (fun q => decide (hoverAccept cx cy q))

/-- Left fold picking the first element of minimal measure: `b` is replaced only on a
strict improvement, so the earliest minimum wins. -/
def closestOf (f : QTItem → ℚ) (a : QTItem) (l : List QTItem) : QTItem :=
  l.foldl (fun b p => if f p < f b then p else b) a

/-- Every `stride`-th element of a list, starting at index 0 and preserving order —
how the spec describes decimation. -/
def everyStride {α : Type} (stride : ℕ) : List α → List α
  | [] => []
  | a :: l => a :: everyStride stride (l.drop (stride - 1))
termination_by l => l.length
decreasing_by simp [List.length_drop]; omega

/-! ### Concrete fixtures used in closed theorems and witnesses -/

/-- The JS `Date` parse results relevant to the three-row end-to-end scenario:
`new Date("2024-01-01T00:00:00Z").getTime() = 1704067200000` (milliseconds),
one second later for `...T00:00:01Z`, and `NaN` (here `none`) for anything else,
in particular for the string `"bad"`. -/
def parse2024 : String → Option ℚ := fun s =>
  if s = "2024-01-01T00:00:00Z" then some 1704067200000
  else if s = "2024-01-01T00:00:01Z" then some 1704067201000
  else none

/-- A parse table containing the Unix epoch itself:
`new Date("1970-01-01T00:00:00Z").getTime() = 0`. -/
def parseEpoch : String → Option ℚ := fun s =>
  if s = "1970-01-01T00:00:00Z" then some 0
  else if s = "2024-01-01T00:00:00Z" then some 1704067200000
  else none

/-- The three rows of the end-to-end scenario:
`[{t:"2024-01-01T00:00:01Z", v:10}, {t:"bad", v:20}, {t:"2024-01-01T00:00:00Z", v:30}]`. -/
def demoRows : List DataRow :=
  [⟨some "2024-01-01T00:00:01Z", some (some 10)⟩,
   ⟨some "bad", some (some 20)⟩,
   ⟨some "2024-01-01T00:00:00Z", some (some 30)⟩]

/-- Two valid rows one second apart, used to exercise the date-range filter. -/
def rangeRows : List DataRow :=
  [⟨some "2024-01-01T00:00:00Z", some (some 1)⟩,
   ⟨some "2024-01-01T00:00:01Z", some (some 2)⟩]

/-- A concrete `ready`-hook context: full extents `[0,100] × [0,100]`, linear y. -/
def ctxDemo : ReadyCtx := ⟨0, 100, 0, 100, false⟩

/-- A concrete viewport strictly inside `ctxDemo`. -/
def scalesDemo : Scales := ⟨⟨10, 20⟩, ⟨10, 20⟩⟩

/-- The gesture-start snapshot taken at `mousedown` on `scalesDemo` with
units-per-pixel 1 on both axes. -/
def gestureDemo : GestureStart := ⟨10, 20, 10, 20, 1, 1⟩

/-- A single marker box of width and height 10 at the origin, series 1, index 0. -/
def boxDemo : QTItem := ⟨0, 0, 10, 10, 1, 0⟩

/-! ### Helper lemmas -/

lemma jsTimestampKeep_zero : jsTimestampKeep (some 0) = none := by
  simp [jsTimestampKeep]

lemma toTimestamp_of_parse_zero (parse : String → Option ℚ) (cts : Bool) (r : DataRow)
    (s : String) (hs : r.datetime = some s) (hne : s ≠ "") (hp : parse s = some 0) :
    toTimestamp parse cts r = some 0 := by
  unfold toTimestamp
  rw [hs]
  simp only [hne, if_false, hp]
  cases cts <;> simp

lemma extractTimestamps_middle_falsy (parse : String → Option ℚ) (cts : Bool)
    (l1 l2 : List DataRow) (r : DataRow)
    (h : jsTimestampKeep (toTimestamp parse cts r) = none) :
    extractTimestamps parse cts (l1 ++ r :: l2) = extractTimestamps parse cts (l1 ++ l2) := by
  unfold extractTimestamps
  simp [List.filterMap_append, List.filterMap_cons, h]

lemma sortTimestamps_nil :
    sortTimestamps [] =
      ⟨[], [], some "No valid timestamps found in the data"⟩ := by
  simp [sortTimestamps]

/-! ### Claim theorems -/

/-- C5: `guardedRange` returns `[0,100]` on double-null input; on a degenerate
`min = max = v` it widens by `delta = |v|` when nonzero and by the constant 100
otherwise (`guardedRange(5,5) = [0,10]`); on a proper range it pads by 5% on each side
(`guardedRange(2,10) = [1.6, 10.4]`); and whenever the non-null inputs are ordered the
result has strictly positive width (the function performs no division at all). -/
theorem guardedRange_spec :
    guardedRange none none = (0, 100) ∧
    guardedRange (some 5) (some 5) = (0, 10) ∧
    guardedRange (some 2) (some 10) = (1.6, 10.4) ∧
    (∀ v : ℚ, v ≠ 0 → guardedRange (some v) (some v) = (v - |v|, v + |v|)) ∧
    guardedRange (some 0) (some 0) = (-100, 100) ∧
    (∀ a b : ℚ, a ≠ b →
      guardedRange (some a) (some b) = (a - (b - a) * (5 / 100), b + (b - a) * (5 / 100))) ∧
    (∀ mn mx : Option ℚ, (∀ a b : ℚ, mn = some a → mx = some b → a ≤ b) →
      (guardedRange mn mx).1 < (guardedRange mn mx).2) := by
  have pair_lt : ∀ x y : ℚ, x < y → (x, y).1 < (x, y).2 := fun x y hxy => hxy
  have hGen : ∀ a b : ℚ, a ≠ b →
      guardedRange (some a) (some b) =
        (a - (b - a) * (5 / 100), b + (b - a) * (5 / 100)) := by
    intro a b hab
    have h1 : ¬ ((some b : Option ℚ) = some a) := by
      simpa using fun h => hab h.symm
    have h2 : ¬ (((some a : Option ℚ) = none) ∨ ((some b : Option ℚ) = none) ∨
        ((some a : Option ℚ) = some b)) := by simpa using hab
    unfold guardedRange paddedRange
    rw [if_neg h1, if_neg h2]
    rfl
  have hDeg : ∀ v : ℚ, guardedRange (some v) (some v) =
      (v - (if |v| = 0 then 100 else |v|), v + (if |v| = 0 then 100 else |v|)) := by
    intro v
    unfold guardedRange
    rw [if_pos rfl]
  refine ⟨?_, ?_, ?_, ?_, ?_, ?_, ?_⟩
  · simp [guardedRange]
  · rw [hDeg]; norm_num
  · rw [hGen 2 10 (by norm_num)]; norm_num
  · intro v hv
    have h0 : ¬ |v| = 0 := by simpa using hv
    rw [hDeg, if_neg h0]
  · rw [hDeg]; norm_num
  · exact hGen
  · intro mn mx h
    match mn, mx with
    | none, none => norm_num [guardedRange]
    | none, some b =>
      have : guardedRange none (some b) = (0, 100) := by
        unfold guardedRange paddedRange
        rw [if_neg (by simp), if_pos (by simp)]
        simp
      rw [this]; norm_num
    | some a, none =>
      have : guardedRange (some a) none = (0, 100) := by
        unfold guardedRange paddedRange
        rw [if_neg (by simp), if_pos (by simp)]
        simp
      rw [this]; norm_num
    | some a, some b =>
      have hab : a ≤ b := h a b rfl rfl
      by_cases he : b = a
      · subst he
        rw [hDeg]
        by_cases h0 : |b| = 0
        · rw [if_pos h0]; apply pair_lt; linarith
        · have : 0 < |b| := lt_of_le_of_ne (abs_nonneg b) (Ne.symm h0)
          rw [if_neg h0]; apply pair_lt; linarith
      · have hlt : a < b := lt_of_le_of_ne hab (fun h => he h.symm)
        rw [hGen a b (fun h => he h.symm)]
        apply pair_lt
        nlinarith

/-- Witness for C5 at concrete inputs. -/
theorem guardedRange_spec_witness :
    guardedRange (some 3) (some 3) = (3 - |3|, 3 + |3|) ∧
    (guardedRange (some 2) (some 10)).1 < (guardedRange (some 2) (some 10)).2 :=
  ⟨guardedRange_spec.2.2.2.1 3 (by norm_num),
   guardedRange_spec.2.2.2.2.2.2 (some 2) (some 10)
     (fun a b ha hb => by
       rw [← Option.some.inj ha, ← Option.some.inj hb]; norm_num)⟩

/-- C9: a row whose datetime parses to epoch value exactly 0 (such as
`"1970-01-01T00:00:00Z"`) is dropped by `processTimestamps` even though it is
parseable, because the surviving timestamps are obtained with `.filter(Boolean)` and
the number `0` is falsy: the row contributes nothing to the result, and a list holding
only such a row yields the empty "no valid timestamps" result. -/
theorem processTimestamps_drops_epoch_zero (parse : String → Option ℚ) (cts : Bool)
    (r : DataRow) (s : String) (hs : r.datetime = some s) (hne : s ≠ "")
    (hp : parse s = some 0) (l1 l2 : List DataRow) :
    processTimestamps parse cts (l1 ++ r :: l2) = processTimestamps parse cts (l1 ++ l2) ∧
    processTimestamps parse cts [r] =
      ⟨[], [], some "No valid timestamps found in the data"⟩ := by
  have ht : jsTimestampKeep (toTimestamp parse cts r) = none := by
    rw [toTimestamp_of_parse_zero parse cts r s hs hne hp, jsTimestampKeep_zero]
  constructor
  · unfold processTimestamps
    rw [extractTimestamps_middle_falsy parse cts l1 l2 r ht]
  · have : extractTimestamps parse cts [r] = [] := by
      unfold extractTimestamps
      simp [List.filterMap_cons, ht]
    unfold processTimestamps
    rw [this, sortTimestamps_nil]

/-- Witness for C9: the epoch row is dropped from a concrete two-row list. -/
theorem processTimestamps_drops_epoch_zero_witness :
    processTimestamps parseEpoch true
        ([] ++ (⟨some "1970-01-01T00:00:00Z", some (some 1)⟩ : DataRow) ::
          [⟨some "2024-01-01T00:00:00Z", some (some 2)⟩]) =
      processTimestamps parseEpoch true ([] ++ [⟨some "2024-01-01T00:00:00Z", some (some 2)⟩]) :=
  (processTimestamps_drops_epoch_zero parseEpoch true _ "1970-01-01T00:00:00Z" rfl
    (by decide) rfl [] [⟨some "2024-01-01T00:00:00Z", some (some 2)⟩]).1

lemma everyStride_cons {α : Type} (s : ℕ) (a : α) (l : List α) :
    everyStride s (a :: l) = a :: everyStride s (l.drop (s - 1)) := by
  simp [everyStride]

lemma everyStride_length {α : Type} (s : ℕ) (hs : 0 < s) :
    ∀ l : List α, (everyStride s l).length = (l.length + s - 1) / s
  | [] => by
    simp only [everyStride, List.length_nil, Nat.zero_add]
    rw [Nat.div_eq_of_lt (by omega)]
  | a :: t => by
    rw [everyStride_cons]
    have hrec := everyStride_length s hs (t.drop (s - 1))
    simp only [List.length_cons, List.length_drop] at hrec ⊢
    rw [hrec]
    have hA : t.length + 1 + s - 1 = t.length + s := by omega
    rw [hA, Nat.add_div_right _ hs]
    rcases le_or_lt (s - 1) t.length with h | h
    · have hB : t.length - (s - 1) + s - 1 = t.length := by omega
      rw [hB]
    · have hB : t.length - (s - 1) + s - 1 = s - 1 := by omega
      rw [hB, Nat.div_eq_of_lt (by omega), Nat.div_eq_of_lt (by omega)]
  termination_by l => l.length
  decreasing_by simp [List.length_drop]; omega

lemma everyStride_getElem {α : Type} (s : ℕ) (hs : 0 < s) :
    ∀ (j : ℕ) (l : List α), (everyStride s l)[j]? = l[j * s]? := by
  intro j
  induction j with
  | zero =>
    intro l
    cases l with
    | nil => simp [everyStride]
    | cons a t => rw [everyStride_cons]; simp
  | succ k ih =>
    intro l
    cases l with
    | nil => simp [everyStride]
    | cons a t =>
      rw [everyStride_cons, List.getElem?_cons_succ, ih, List.getElem?_drop]
      have h2 : (k + 1) * s = k * s + s := by ring
      have h3 : (k + 1) * s = (s - 1 + k * s) + 1 := by omega
      rw [h3, List.getElem?_cons_succ]

lemma enumFrom_filter_stride {α : Type} (s : ℕ) (hs : 0 < s) :
    ∀ (l : List α) (o d : ℕ), d < s → (o + d) % s = 0 →
      ((List.enumFrom o l).filter (fun p => p.1 % s = 0)).map Prod.snd =
        everyStride s (l.drop d)
  | [], o, d, hd, ho => by simp [everyStride, List.enumFrom]
  | a :: t, o, d, hd, ho => by
    cases d with
    | zero =>
      have ho0 : o % s = 0 := by simpa using ho
      have hrec := enumFrom_filter_stride s hs t (o + 1) (s - 1) (by omega)
        (by
          have : o + 1 + (s - 1) = o + s := by omega
          rw [this, Nat.add_mod_right]
          exact ho0)
      simp only [List.enumFrom, List.drop_zero]
      rw [List.filter_cons]
      simp only [ho0, decide_True, if_true]
      rw [List.map_cons, hrec, everyStride_cons]
    | succ e =>
      have hdvd : s ∣ o + (e + 1) := Nat.dvd_of_mod_eq_zero ho
      have hno : ¬ (o % s = 0) := by
        intro h0
        have h1 : s ∣ (e + 1) :=
          (Nat.dvd_add_right (Nat.dvd_of_mod_eq_zero h0)).mp hdvd
        have := Nat.eq_zero_of_dvd_of_lt h1 (by omega)
        omega
      have hrec := enumFrom_filter_stride s hs t (o + 1) e (by omega)
        (by
          have : o + 1 + e = o + (e + 1) := by omega
          rw [this]
          exact ho)
      simp only [List.enumFrom]
      rw [List.filter_cons]
      simp only [hno, decide_False, Bool.false_eq_true, if_false]
      rw [hrec]
      simp

lemma skipFactor_pos {n m : ℕ} (hm : 0 < m) (h : m < n) : 0 < skipFactor n m := by
  unfold skipFactor
  rw [Nat.lt_iff_add_one_le, Nat.le_div_iff_mul_le hm]
  omega

lemma skipFactor_mul_ge {n m : ℕ} (hm : 0 < m) : n ≤ m * skipFactor n m := by
  unfold skipFactor
  have hdm := Nat.div_add_mod (n + m - 1) m
  have hmod : (n + m - 1) % m < m := Nat.mod_lt _ hm
  omega

lemma decimateData_eq_everyStride {α : Type} (l : List α) (m : ℕ) (hm : 0 < m)
    (h : m < l.length) : decimateData l m = everyStride (skipFactor l.length m) l := by
  unfold decimateData
  rw [if_neg (by omega)]
  have hk : 0 < skipFactor l.length m := skipFactor_pos hm h
  have := enumFrom_filter_stride (skipFactor l.length m) hk l 0 0 hk (by simp)
  simpa [List.enum] using this

lemma decimateData_length_le {α : Type} (l : List α) (m : ℕ) (hm : 0 < m) :
    (decimateData l m).length ≤ m := by
  by_cases h : l.length ≤ m
  · unfold decimateData; rw [if_pos h]; exact h
  · push_neg at h
    rw [decimateData_eq_everyStride l m hm h,
      everyStride_length _ (skipFactor_pos hm h)]
    have h1 : 0 < skipFactor l.length m := skipFactor_pos hm h
    have h2 : l.length ≤ m * skipFactor l.length m := skipFactor_mul_ge hm
    rw [← Nat.lt_succ_iff, Nat.div_lt_iff_lt_mul h1]
    have h3 : (m + 1) * skipFactor l.length m =
        m * skipFactor l.length m + skipFactor l.length m := by ring
    have h4 : Nat.succ m * skipFactor l.length m =
        m * skipFactor l.length m + skipFactor l.length m := by
      rw [Nat.succ_mul]
    omega

/-- C7: `decimateData` returns its input unchanged when `len ≤ maxPoints`; otherwise,
with `stride = ⌈len / maxPoints⌉`, it returns exactly the elements at indices divisible
by `stride` (the `j`-th output is the input at index `j·stride`), starting at index 0
and preserving order, and its output length never exceeds `maxPoints`; for
`len = 50000` and `maxPoints = 20000` the stride is 3 and the output length 16667. -/
theorem decimateData_spec {α : Type} (data : List α) (mp : ℕ) (h : 0 < mp) :
    (data.length ≤ mp → decimateData data mp = data) ∧
    (decimateData data mp).length ≤ mp ∧
    (mp < data.length →
      decimateData data mp = everyStride (skipFactor data.length mp) data ∧
      ∀ j : ℕ, (decimateData data mp)[j]? = data[j * skipFactor data.length mp]?) ∧
    skipFactor 50000 20000 = 3 ∧
    (decimateData (List.range 50000) 20000).length = 16667 := by
  refine ⟨?_, decimateData_length_le data mp h, ?_, by decide, ?_⟩
  · intro hle; unfold decimateData; rw [if_pos hle]
  · intro hlt
    refine ⟨decimateData_eq_everyStride data mp h hlt, ?_⟩
    intro j
    rw [decimateData_eq_everyStride data mp h hlt,
      everyStride_getElem _ (skipFactor_pos h hlt) j]
  · have hlen : (List.range 50000).length = 50000 := List.length_range 50000
    have hlt : (20000 : ℕ) < (List.range 50000).length := by rw [hlen]; omega
    rw [decimateData_eq_everyStride _ _ (by omega) hlt,
      everyStride_length _ (skipFactor_pos (by omega) hlt), hlen]
    decide

/-- Witness for C7 at a concrete input. -/
theorem decimateData_spec_witness :
    (decimateData ([0, 1, 2, 3] : List ℕ) 2).length ≤ 2 :=
  (decimateData_spec [0, 1, 2, 3] 2 (by decide)).2.1

/-- C1: on the three-row scenario the code DOES return
`sortedTimestamps = [T0, T0+1]`, but the returned indices are `[1, 0]` — indices into
the parse-surviving subsequence, not the claimed permutation `[2, 0]` of original row
indices — and aligning column `v` through them (as `processChartData` does) yields
`[20, 10]`, pairing the value of the unparseable row with timestamp `T0`, instead of
the claimed `[30, 10]`. -/
theorem processChartData_misaligns_after_drop :
    (processTimestamps parse2024 true demoRows).sortedTimestamps =
      [1704067200, 1704067201] ∧
    (processTimestamps parse2024 true demoRows).timeIndices = [1, 0] ∧
    processChartData parse2024 demoRows none none 20000 =
      .ok ([1704067200, 1704067201], [some 20, some 10]) ∧
    ([some (20 : ℚ), some 10] ≠ [some 30, some 10]) := by
  have e1 : extractTimestamps parse2024 true demoRows = [1704067201, 1704067200] := by
    simp [extractTimestamps, demoRows, toTimestamp, jsTimestampKeep, parse2024,
      List.filterMap_cons, List.filterMap_nil]
    norm_num
  have e2 : processTimestamps parse2024 true demoRows =
      ⟨[1, 0], [1704067200, 1704067201], none⟩ := by
    unfold processTimestamps
    rw [e1]
    have hr : List.range 2 = [0, 1] := rfl
    norm_num [sortTimestamps, hr, List.insertionSort, List.orderedInsert]
  have e3 : getFilteredData parse2024 demoRows none none 20000 = demoRows := by
    simp [getFilteredData, demoRows, jsStrTruthy]
  refine ⟨by rw [e2], by rw [e2], ?_, by decide⟩
  simp only [processChartData]
  rw [e3, e2]
  simp [demoRows, List.getD]

/-- C8: timestamp normalization is total and fails only through explicit results:
an empty surviving set yields the sentinel "no valid timestamps" result; a row whose
time field is missing or unparseable is dropped and processing continues unchanged
over the remaining rows; and the caller `processChartData` always returns either a
success or one of its two explicitly labeled error states, never an exception. -/
theorem processing_never_throws (parse : String → Option ℚ) (cts : Bool) :
    (∀ data : List DataRow, extractTimestamps parse cts data = [] →
      processTimestamps parse cts data =
        ⟨[], [], some "No valid timestamps found in the data"⟩) ∧
    (∀ (l1 l2 : List DataRow) (r : DataRow), toTimestamp parse cts r = none →
      processTimestamps parse cts (l1 ++ r :: l2) =
        processTimestamps parse cts (l1 ++ l2)) ∧
    (∀ (data : List DataRow) (mn mx : Option ℚ) (mp : ℕ),
      (∃ e, processChartData parse data mn mx mp = .error e ∧
        (e = "No valid data points found with both datetime and dataColumn values in selected range" ∨
         e = "No valid dataColumn values found in the data in selected range")) ∨
      (∃ v, processChartData parse data mn mx mp = .ok v)) := by
  refine ⟨?_, ?_, ?_⟩
  · intro data h
    unfold processTimestamps
    rw [h, sortTimestamps_nil]
  · intro l1 l2 r h
    unfold processTimestamps
    rw [extractTimestamps_middle_falsy parse cts l1 l2 r (by rw [h]; rfl)]
  · intro data mn mx mp
    simp only [processChartData]
    split
    · exact Or.inl ⟨_, rfl, Or.inl rfl⟩
    · split
      · exact Or.inl ⟨_, rfl, Or.inr rfl⟩
      · exact Or.inr ⟨_, rfl⟩

/-- Witness for C8: the empty dataset resolves to the explicit sentinel result. -/
theorem processing_never_throws_witness :
    processTimestamps parse2024 true [] =
      ⟨[], [], some "No valid timestamps found in the data"⟩ :=
  (processing_never_throws parse2024 true).1 [] rfl

/-- C10: with both ends of the date-range filter set, `getFilteredData` returns the
range-filtered valid rows without any decimation — the result does not depend on
`MAX_POINTS` at all, and can exceed it (two surviving rows against `MAX_POINTS = 1`) —
while without a date-range filter the result length never exceeds `MAX_POINTS`. -/
theorem getFilteredData_range_skips_decimation :
    (∀ (parse : String → Option ℚ) (data : List DataRow) (a b : ℚ) (mp mp2 : ℕ),
      getFilteredData parse data (some a) (some b) mp =
        getFilteredData parse data (some a) (some b) mp2) ∧
    (∀ (parse : String → Option ℚ) (data : List DataRow) (a b : ℚ) (mp : ℕ),
      getFilteredData parse data (some a) (some b) mp =
        (data.filter (fun d => jsStrTruthy d.datetime && d.value.isSome)).filter
          (fun d => match d.datetime with
            | none => false
            | some s => match parse s with
              | some ts => decide (a ≤ ts) && decide (ts ≤ b)
              | none => false)) ∧
    ((getFilteredData parse2024 rangeRows (some 0) (some 1704067201000) 1).length = 2 ∧
      1 < 2) ∧
    (∀ (parse : String → Option ℚ) (data : List DataRow) (mp : ℕ), 0 < mp →
      (getFilteredData parse data none none mp).length ≤ mp) := by
  refine ⟨fun parse data a b mp mp2 => rfl, fun parse data a b mp => rfl, by decide, ?_⟩
  intro parse data mp hmp
  simp only [getFilteredData]
  split
  · exact decimateData_length_le _ mp hmp
  · omega

/-- Witness for C10 at a concrete input without a date filter. -/
theorem getFilteredData_range_skips_decimation_witness :
    (getFilteredData parse2024 rangeRows none none 1).length ≤ 1 :=
  getFilteredData_range_skips_decimation.2.2.2 parse2024 rangeRows 1 (by decide)

lemma panYOk_bounds {c : ReadyCtx} {ny : Scale} (hy : panYOk c ny) :
    c.yMin - padFactor * c.yRange ≤ ny.min ∧ ny.max ≤ c.yMax + padFactor * c.yRange ∧
      (c.distr3 = true → panEps < ny.min) := by
  unfold panYOk at hy
  cases hd : c.distr3 with
  | true =>
    rw [hd] at hy
    simp only [if_true] at hy
    exact ⟨hy.2.1, hy.2.2, fun _ => hy.1⟩
  | false =>
    rw [hd] at hy
    simp only [Bool.false_eq_true, if_false] at hy
    exact ⟨hy.1, hy.2, fun hcon => absurd hcon Bool.false_ne_true⟩

lemma panMove_inv (c : ReadyCtx) (g : GestureStart) (cur : Scales) (dx dy : ℚ)
    (h : panInv c cur) : panInv c (panMove c g cur dx dy) := by
  obtain ⟨h1, h2, h3, h4, h5⟩ := h
  unfold panInv panMove
  dsimp only
  refine ⟨?_, ?_, ?_, ?_, ?_⟩
  · by_cases hx : panXOk c (panTargets g dx dy).1
    · rw [if_pos hx]; exact hx.1
    · rw [if_neg hx]; exact h1
  · by_cases hx : panXOk c (panTargets g dx dy).1
    · rw [if_pos hx]; exact hx.2
    · rw [if_neg hx]; exact h2
  · by_cases hy : panYOk c (panTargets g dx dy).2
    · rw [if_pos hy]; exact (panYOk_bounds hy).1
    · rw [if_neg hy]; exact h3
  · by_cases hy : panYOk c (panTargets g dx dy).2
    · rw [if_pos hy]; exact (panYOk_bounds hy).2.1
    · rw [if_neg hy]; exact h4
  · by_cases hy : panYOk c (panTargets g dx dy).2
    · rw [if_pos hy]; exact (panYOk_bounds hy).2.2
    · rw [if_neg hy]; exact h5

lemma panFold_inv (c : ReadyCtx) (g : GestureStart) :
    ∀ (moves : List (ℚ × ℚ)) (cur : Scales), panInv c cur →
      panInv c (moves.foldl (fun s m => panMove c g s m.1 m.2) cur)
  | [], _, h => h
  | m :: ms, cur, h => panFold_inv c g ms _ (panMove_inv c g cur m.1 m.2 h)

lemma runGesture_inv (c : ReadyCtx) (s : Scales) (gst : PanGesture)
    (h : panInv c s) : panInv c (runGesture c s gst) :=
  panFold_inv c _ gst.moves s h

lemma runPanEvents_drag_inv (c : ReadyCtx) :
    ∀ (l : List PanEvent) (s : Scales), (∀ e ∈ l, e.isDrag = true) → panInv c s →
      panInv c (runPanEvents c s l)
  | [], _, _, h => h
  | e :: l, s, hall, h => by
    cases e with
    | drag gst =>
      exact runPanEvents_drag_inv c l _
        (fun e he => hall e (List.mem_cons_of_mem _ he))
        (runGesture_inv c s gst h)
    | axisDrag heightPx moves =>
      have := hall _ (List.mem_cons_self _ _)
      simp [PanEvent.isDrag] at this

lemma runAxisDrag_single_max (s : Scales) (dy : ℚ) :
    (runAxisDrag s 1 [(dy, false)]).y.max =
      s.y.max + dy * (s.y.max - s.y.min) := by
  simp [runAxisDrag]

/-- C3 counterexample: starting from a viewport strictly inside the `[0,100] × [0,100]`
extent, a single axis-drag pan gesture (which the claim cites as one of its sources)
drives the y maximum past `dataExtent.max + tolerance`, because that handler calls
`setScale` with no bound guard at all. -/
theorem pan_escapes_extent_cex :
    (ctxDemo.xMin ≤ scalesDemo.x.min ∧ scalesDemo.x.max ≤ ctxDemo.xMax ∧
     ctxDemo.yMin ≤ scalesDemo.y.min ∧ scalesDemo.y.max ≤ ctxDemo.yMax) ∧
    ctxDemo.yMax + padFactor * ctxDemo.yRange <
      (runPanEvents ctxDemo scalesDemo [.axisDrag 100 [(10000, false)]]).y.max := by
  refine ⟨⟨by decide, by decide, by decide, by decide⟩, ?_⟩
  norm_num [runPanEvents, runPanEvent, runAxisDrag, ctxDemo, scalesDemo, padFactor,
    ReadyCtx.yRange]

/-- C3 amended: over any sequence of middle-button drag-pan gestures (the guarded
`onmove` handler) started from a viewport inside the data extent, the bounds never
escape the extent padded by the 1% tolerance on either axis, and on an axis with the
positive-only (`distr === 3`) distribution the minimum stays strictly above the
positive epsilon `1e-20`, hence never reaches `≤ 0`; the axis-drag pan handler,
however, commits unguarded translations, so from any non-degenerate viewport a single
axis-drag move can push the y maximum past any bound whatsoever. -/
theorem pan_bounds_amended (c : ReadyCtx) (s : Scales) (l : List PanEvent)
    (hdrag : ∀ e ∈ l, e.isDrag = true)
    (hx1 : c.xMin ≤ s.x.min) (hx2 : s.x.max ≤ c.xMax) (hxo : s.x.min ≤ s.x.max)
    (hy1 : c.yMin ≤ s.y.min) (hy2 : s.y.max ≤ c.yMax) (hyo : s.y.min < s.y.max)
    (heps : c.distr3 = true → panEps < s.y.min) :
    (panInv c (runPanEvents c s l) ∧
      (c.distr3 = true → 0 < (runPanEvents c s l).y.min)) ∧
    (∀ B : ℚ, ∃ dy : ℚ,
      B < (runPanEvents c s [.axisDrag 1 [(dy, false)]]).y.max) := by
  have hxr : 0 ≤ c.xRange := by unfold ReadyCtx.xRange; linarith
  have hyr : 0 ≤ c.yRange := by unfold ReadyCtx.yRange; linarith
  have hpad : 0 ≤ padFactor := by norm_num [padFactor]
  have h0 : panInv c s := by
    refine ⟨?_, ?_, ?_, ?_, heps⟩ <;>
      nlinarith [mul_nonneg hpad hxr, mul_nonneg hpad hyr]
  have hinv := runPanEvents_drag_inv c l s hdrag h0
  refine ⟨⟨hinv, fun hd => ?_⟩, ?_⟩
  · have h1 := hinv.2.2.2.2 hd
    have h2 : 0 < panEps := by norm_num [panEps]
    linarith
  · intro B
    refine ⟨(B + 1 - s.y.max) / (s.y.max - s.y.min), ?_⟩
    have hr : s.y.max - s.y.min ≠ 0 := by linarith
    show B < (runPanEvents c s
      [.axisDrag 1 [((B + 1 - s.y.max) / (s.y.max - s.y.min), false)]]).y.max
    have : (runPanEvents c s
        [.axisDrag 1 [((B + 1 - s.y.max) / (s.y.max - s.y.min), false)]]).y.max =
        s.y.max + ((B + 1 - s.y.max) / (s.y.max - s.y.min)) * (s.y.max - s.y.min) := by
      simp only [runPanEvents, List.foldl_cons, List.foldl_nil, runPanEvent]
      exact runAxisDrag_single_max s _
    rw [this, div_mul_cancel₀ _ hr]
    linarith

/-- Witness for the amended C3 theorem: one concrete guarded drag gesture inside a
concrete extent. -/
theorem pan_bounds_amended_witness :
    (panInv ctxDemo (runPanEvents ctxDemo scalesDemo [.drag ⟨1, 1, [(1, 1)]⟩]) ∧
      (ctxDemo.distr3 = true →
        0 < (runPanEvents ctxDemo scalesDemo [.drag ⟨1, 1, [(1, 1)]⟩]).y.min)) ∧
    (∀ B : ℚ, ∃ dy : ℚ,
      B < (runPanEvents ctxDemo scalesDemo [.axisDrag 1 [(dy, false)]]).y.max) :=
  pan_bounds_amended ctxDemo scalesDemo [.drag ⟨1, 1, [(1, 1)]⟩]
    (by simp [PanEvent.isDrag])
    (by decide) (by decide) (by decide) (by decide) (by decide) (by decide)
    (fun h => nomatch h)

lemma clamp_eq_self (nRange nMin nMax fRange fMin fMax : ℚ)
    (h1 : nRange ≤ fRange) (h2 : fMin ≤ nMin) (h3 : nMax ≤ fMax) :
    clamp nRange nMin nMax fRange fMin fMax = (nMin, nMax) := by
  unfold clamp
  rw [if_neg (by linarith), if_neg (by linarith), if_neg (by linarith)]

lemma axisZoom_in_eq (oMin oMax pct v fRange fMin fMax : ℚ)
    (h1 : fMin ≤ oMin) (h2 : oMax ≤ fMax) (h3 : oMin ≤ oMax) (h4 : oMax - oMin ≤ fRange)
    (hp1 : 0 ≤ pct) (hp2 : pct ≤ 1) (hv : v = oMin + pct * (oMax - oMin)) :
    axisZoom (9 / 10) true oMin oMax pct v fRange fMin fMax =
      (oMin + pct * (oMax - oMin) * (1 / 10),
       oMax - (1 - pct) * (oMax - oMin) * (1 / 10)) := by
  have hpo : 0 ≤ pct * (oMax - oMin) := mul_nonneg hp1 (by linarith)
  have hpo2 : 0 ≤ (1 - pct) * (oMax - oMin) := mul_nonneg (by linarith) (by linarith)
  unfold axisZoom
  simp only [if_true]
  rw [clamp_eq_self]
  · rw [Prod.mk.injEq]
    constructor <;> (rw [hv]; ring)
  · nlinarith
  · nlinarith [hv]
  · nlinarith [hv]

lemma axisZoom_roundtrip (oMin oMax pct v fRange fMin fMax : ℚ)
    (h1 : fMin ≤ oMin) (h2 : oMax ≤ fMax) (h3 : oMin ≤ oMax) (h4 : oMax - oMin ≤ fRange)
    (hp1 : 0 ≤ pct) (hp2 : pct ≤ 1) (hv : v = oMin + pct * (oMax - oMin)) :
    axisZoom (9 / 10) false
      (axisZoom (9 / 10) true oMin oMax pct v fRange fMin fMax).1
      (axisZoom (9 / 10) true oMin oMax pct v fRange fMin fMax).2
      pct v fRange fMin fMax = (oMin, oMax) := by
  rw [axisZoom_in_eq oMin oMax pct v fRange fMin fMax h1 h2 h3 h4 hp1 hp2 hv]
  unfold axisZoom
  simp only [Bool.false_eq_true, if_false]
  have hR : ((oMin + pct * (oMax - oMin) * (1 / 10),
        oMax - (1 - pct) * (oMax - oMin) * (1 / 10)).2 -
      (oMin + pct * (oMax - oMin) * (1 / 10),
        oMax - (1 - pct) * (oMax - oMin) * (1 / 10)).1) / (9 / 10) = oMax - oMin := by
    dsimp only
    ring
  rw [hR, clamp_eq_self]
  · rw [Prod.mk.injEq]
    constructor <;> (rw [hv]; ring)
  · linarith
  · rw [hv]; linarith
  · rw [hv]; linarith

/-- C4: from any viewport inside the data extent, a wheel zoom-in by factor 0.9
anchored at a fixed cursor data coordinate followed by a wheel zoom-out by 1/0.9
anchored at the same coordinate restores the original bounds exactly (in the exact
rational model; the floating-point implementation agrees within tolerance). -/
theorem wheelZoom_roundtrip (c : ReadyCtx) (s : Scales) (leftPct btmPct xVal yVal : ℚ)
    (hp1 : 0 ≤ leftPct) (hp2 : leftPct ≤ 1) (hq1 : 0 ≤ btmPct) (hq2 : btmPct ≤ 1)
    (hx1 : c.xMin ≤ s.x.min) (hxo : s.x.min ≤ s.x.max) (hx2 : s.x.max ≤ c.xMax)
    (hy1 : c.yMin ≤ s.y.min) (hyo : s.y.min ≤ s.y.max) (hy2 : s.y.max ≤ c.yMax)
    (hxv : xVal = s.x.min + leftPct * (s.x.max - s.x.min))
    (hyv : yVal = s.y.min + btmPct * (s.y.max - s.y.min)) :
    wheelZoom (9 / 10) c (wheelZoom (9 / 10) c s leftPct btmPct xVal yVal true)
      leftPct btmPct xVal yVal false = s := by
  obtain ⟨⟨sxmin, sxmax⟩, ⟨symin, symax⟩⟩ := s
  dsimp only at hx1 hxo hx2 hy1 hyo hy2 hxv hyv
  have hxr : 0 ≤ c.xRange := by unfold ReadyCtx.xRange; linarith
  have hyr : 0 ≤ c.yRange := by unfold ReadyCtx.yRange; linarith
  have hpad : 0 ≤ padFactor := by norm_num [padFactor]
  have hpx : 0 ≤ padFactor * c.xRange := mul_nonneg hpad hxr
  have hx := axisZoom_roundtrip sxmin sxmax leftPct xVal c.xRange
    (c.xMin - padFactor * c.xRange) (c.xMax + padFactor * c.xRange)
    (by linarith) (by linarith) hxo (by unfold ReadyCtx.xRange; linarith)
    hp1 hp2 hxv
  have hy := axisZoom_roundtrip symin symax btmPct yVal c.yRange c.yMin c.yMax
    hy1 hy2 hyo (by unfold ReadyCtx.yRange; linarith) hq1 hq2 hyv
  unfold wheelZoom
  dsimp only
  rw [hx, hy]

/-- Witness for C4 at concrete values (cursor at the left/bottom corner). -/
theorem wheelZoom_roundtrip_witness :
    wheelZoom (9 / 10) ctxDemo
        (wheelZoom (9 / 10) ctxDemo scalesDemo 0 0 10 10 true) 0 0 10 10 false =
      scalesDemo :=
  wheelZoom_roundtrip ctxDemo scalesDemo 0 0 10 10
    (by decide) (by decide) (by decide) (by decide)
    (by decide) (by decide) (by decide) (by decide) (by decide) (by decide)
    (by simp [scalesDemo]) (by simp [scalesDemo])

lemma panMovePublished_demo :
    panMovePublished ctxDemo gestureDemo scalesDemo 1 1 =
      [⟨⟨9, 19⟩, ⟨10, 20⟩⟩, ⟨⟨9, 19⟩, ⟨9, 19⟩⟩] := by
  have hx : panXOk ctxDemo (panTargets gestureDemo 1 1).1 := by
    norm_num [panXOk, panTargets, ctxDemo, gestureDemo, padFactor, ReadyCtx.xRange]
  have hy : panYOk ctxDemo (panTargets gestureDemo 1 1).2 := by
    norm_num [panYOk, panTargets, ctxDemo, gestureDemo, padFactor, ReadyCtx.yRange]
  simp only [panMovePublished, if_pos hx, if_pos hy]
  norm_num [panTargets, gestureDemo, scalesDemo]

/-- C2 counterexample: during a single pan move step in which both axes change, the
handler publishes (via the first unbatched `setScale`) an intermediate state whose x
axis is already updated while its y axis still holds the pre-step values — an observer
of that state sees exactly one axis updated, contradicting the claim. -/
theorem pan_not_atomic_cex :
    ∃ st ∈ panMovePublished ctxDemo gestureDemo scalesDemo 1 1,
      st.x ≠ scalesDemo.x ∧ st.y = scalesDemo.y := by
  refine ⟨⟨⟨9, 19⟩, ⟨10, 20⟩⟩, ?_, by decide, by decide⟩
  rw [panMovePublished_demo]
  exact List.mem_cons_self _ _

/-- C2 amended: the wheel-zoom handler is atomic — both axis updates are applied
inside one `u.batch`, publishing a single state per wheel step — but the pan handler
is not: its two `setScale` calls are unbatched, so when both guards pass it publishes
first an intermediate state with only the x axis updated (y unchanged) and only then
the combined state. -/
theorem pan_zoom_atomicity_amended (factor : ℚ) (c : ReadyCtx) (s : Scales)
    (lp bp xv yv : ℚ) (zi : Bool) (g : GestureStart) (cur : Scales) (dx dy : ℚ)
    (hx : panXOk c (panTargets g dx dy).1) (hy : panYOk c (panTargets g dx dy).2) :
    wheelZoomPublished factor c s lp bp xv yv zi =
      [wheelZoom factor c s lp bp xv yv zi] ∧
    panMovePublished c g cur dx dy =
      [{ cur with x := (panTargets g dx dy).1 },
       { x := (panTargets g dx dy).1, y := (panTargets g dx dy).2 }] ∧
    ({ cur with x := (panTargets g dx dy).1 } : Scales).y = cur.y ∧
    panMove c g cur dx dy = { x := (panTargets g dx dy).1, y := (panTargets g dx dy).2 } := by
  refine ⟨rfl, ?_, rfl, ?_⟩
  · simp only [panMovePublished, if_pos hx, if_pos hy]
    rfl
  · simp only [panMove, if_pos hx, if_pos hy]

/-- Witness for the amended C2 theorem at the concrete pan step of the counterexample
scenario. -/
theorem pan_zoom_atomicity_amended_witness :
    panMovePublished ctxDemo gestureDemo scalesDemo 1 1 =
      [{ scalesDemo with x := (panTargets gestureDemo 1 1).1 },
       { x := (panTargets gestureDemo 1 1).1, y := (panTargets gestureDemo 1 1).2 }] :=
  (pan_zoom_atomicity_amended 1 ctxDemo scalesDemo 0 0 0 0 true gestureDemo scalesDemo 1 1
    (by norm_num [panXOk, panTargets, ctxDemo, gestureDemo, padFactor, ReadyCtx.xRange])
    (by norm_num [panYOk, panTargets, ctxDemo, gestureDemo, padFactor,
      ReadyCtx.yRange])).2.1

lemma closestOf_cons (f : QTItem → ℚ) (a q : QTItem) (t : List QTItem) :
    closestOf f a (q :: t) = closestOf f (if f q < f a then q else a) t := by
  unfold closestOf
  rw [List.foldl_cons]

lemma closestOf_spec (f : QTItem → ℚ) :
    ∀ (l : List QTItem) (a : QTItem),
      (f (closestOf f a l) ≤ f a ∧ ∀ p ∈ l, f (closestOf f a l) ≤ f p) ∧
      (closestOf f a l = a ∨ ∃ l1 l2, l = l1 ++ closestOf f a l :: l2 ∧
        f (closestOf f a l) < f a ∧ ∀ p ∈ l1, f (closestOf f a l) < f p)
  | [], a => by simp [closestOf]
  | q :: t, a => by
    by_cases hq : f q < f a
    · rw [closestOf_cons, if_pos hq]
      obtain ⟨⟨m1, m2⟩, hdec⟩ := closestOf_spec f t q
      refine ⟨⟨by linarith, ?_⟩, Or.inr ?_⟩
      · intro p hp
        rcases List.mem_cons.mp hp with h | h
        · rw [h]; linarith
        · exact m2 p h
      · rcases hdec with heq | ⟨l1, l2, hsplit, hlt, hstrict⟩
        · refine ⟨[], t, ?_, by rw [heq]; exact hq, by simp⟩
          rw [heq]
          rfl
        · refine ⟨q :: l1, l2, ?_, by linarith, ?_⟩
          · rw [List.cons_append, ← hsplit]
          · intro p hp
            rcases List.mem_cons.mp hp with h | h
            · rw [h]; linarith
            · exact hstrict p h
    · rw [closestOf_cons, if_neg hq]
      obtain ⟨⟨m1, m2⟩, hdec⟩ := closestOf_spec f t a
      refine ⟨⟨m1, ?_⟩, ?_⟩
      · intro p hp
        rcases List.mem_cons.mp hp with h | h
        · rw [h]; linarith [not_lt.mp hq]
        · exact m2 p h
      · rcases hdec with heq | ⟨l1, l2, hsplit, hlt, hstrict⟩
        · exact Or.inl heq
        · refine Or.inr ⟨q :: l1, l2, ?_, hlt, ?_⟩
          · rw [List.cons_append, ← hsplit]
          · intro p hp
            rcases List.mem_cons.mp hp with h | h
            · rw [h]; linarith [not_lt.mp hq]
            · exact hstrict p h

lemma hoverCandidates_cons_pos (cx cy : ℚ) (q : QTItem) (t : List QTItem)
    (hacc : hoverAccept cx cy q) :
    hoverCandidates cx cy (q :: t) = q :: hoverCandidates cx cy t := by
  simp [hoverCandidates, List.filter_cons, hacc]

lemma hoverCandidates_cons_neg (cx cy : ℚ) (q : QTItem) (t : List QTItem)
    (hacc : ¬ hoverAccept cx cy q) :
    hoverCandidates cx cy (q :: t) = hoverCandidates cx cy t := by
  simp [hoverCandidates, List.filter_cons, hacc]

lemma hoverStep_none_accept (cx cy : ℚ) (q : QTItem) (hacc : hoverAccept cx cy q) :
    hoverStep cx cy none q = some (q, distSq cx cy q) := by
  unfold hoverStep
  rw [if_pos hacc.1]
  dsimp only
  rw [if_pos hacc.2]

lemma hoverStep_none_skip (cx cy : ℚ) (q : QTItem) (hacc : ¬ hoverAccept cx cy q) :
    hoverStep cx cy none q = none := by
  unfold hoverStep
  by_cases hpw : pointWithin cx cy q.x q.y (q.x + q.w) (q.y + q.h)
  · rw [if_pos hpw]
    dsimp only
    rw [if_neg (fun hw => hacc ⟨hpw, hw⟩)]
  · rw [if_neg hpw]

lemma hoverStep_some_better (cx cy : ℚ) (q q0 : QTItem) (d0 : ℚ)
    (hacc : hoverAccept cx cy q) (hlt : distSq cx cy q < d0) :
    hoverStep cx cy (some (q0, d0)) q = some (q, distSq cx cy q) := by
  unfold hoverStep
  rw [if_pos hacc.1]
  dsimp only
  rw [if_pos ⟨hacc.2, hlt⟩]

lemma hoverStep_some_keep (cx cy : ℚ) (q q0 : QTItem) (d0 : ℚ)
    (h : ¬ (hoverAccept cx cy q ∧ distSq cx cy q < d0)) :
    hoverStep cx cy (some (q0, d0)) q = some (q0, d0) := by
  unfold hoverStep
  by_cases hpw : pointWithin cx cy q.x q.y (q.x + q.w) (q.y + q.h)
  · rw [if_pos hpw]
    dsimp only
    rw [if_neg (fun hc => h ⟨⟨hpw, hc.1⟩, hc.2⟩)]
  · rw [if_neg hpw]

lemma hoverFold_some (cx cy : ℚ) :
    ∀ (cands : List QTItem) (q0 : QTItem),
      cands.foldl (hoverStep cx cy) (some (q0, distSq cx cy q0)) =
        some (closestOf (distSq cx cy) q0 (hoverCandidates cx cy cands),
          distSq cx cy (closestOf (distSq cx cy) q0 (hoverCandidates cx cy cands)))
  | [], q0 => by simp [hoverCandidates, closestOf]
  | q :: t, q0 => by
    rw [List.foldl_cons]
    by_cases hacc : hoverAccept cx cy q
    · rw [hoverCandidates_cons_pos cx cy q t hacc, closestOf_cons]
      by_cases hlt : distSq cx cy q < distSq cx cy q0
      · rw [hoverStep_some_better cx cy q q0 (distSq cx cy q0) hacc hlt,
          hoverFold_some cx cy t q, if_pos hlt]
      · rw [hoverStep_some_keep cx cy q q0 (distSq cx cy q0) (fun hc => hlt hc.2),
          hoverFold_some cx cy t q0, if_neg hlt]
    · rw [hoverStep_some_keep cx cy q q0 (distSq cx cy q0) (fun hc => hacc hc.1),
        hoverFold_some cx cy t q0, hoverCandidates_cons_neg cx cy q t hacc]

lemma hoverFold_none (cx cy : ℚ) :
    ∀ cands : List QTItem, cands.foldl (hoverStep cx cy) none =
      match hoverCandidates cx cy cands with
      | [] => none
      | a :: t => some (closestOf (distSq cx cy) a t,
          distSq cx cy (closestOf (distSq cx cy) a t))
  | [] => by simp [hoverCandidates]
  | q :: t => by
    rw [List.foldl_cons]
    by_cases hacc : hoverAccept cx cy q
    · rw [hoverStep_none_accept cx cy q hacc, hoverFold_some cx cy t q,
        hoverCandidates_cons_pos cx cy q t hacc]
    · rw [hoverStep_none_skip cx cy q hacc, hoverFold_none cx cy t,
        hoverCandidates_cons_neg cx cy q t hacc]

/-- C6: hover hit resolution accepts a visited box only if the cursor lies within it
and the cursor-to-centre Euclidean distance is at most half the box width; among the
accepted candidates it returns the one of minimal distance, with ties broken by
traversal order (the first minimal candidate wins, since only strict improvements
replace the running best); it returns none exactly when no candidate is accepted. -/
theorem resolveHover_spec (cx cy : ℚ) (cands : List QTItem) :
    (resolveHover cx cy cands = none ↔ hoverCandidates cx cy cands = []) ∧
    (∀ q, resolveHover cx cy cands = some q →
      q ∈ cands ∧ hoverAccept cx cy q ∧
      (∀ p ∈ hoverCandidates cx cy cands, distSq cx cy q ≤ distSq cx cy p) ∧
      ∃ l1 l2, hoverCandidates cx cy cands = l1 ++ q :: l2 ∧
        ∀ p ∈ l1, distSq cx cy q < distSq cx cy p) := by
  unfold resolveHover
  rw [hoverFold_none cx cy cands]
  cases hh : hoverCandidates cx cy cands with
  | nil => simp
  | cons a t =>
    constructor
    · simp
    · intro q hq
      replace hq : closestOf (distSq cx cy) a t = q := by simpa using hq
      subst hq
      obtain ⟨⟨m1, m2⟩, hdec⟩ := closestOf_spec (distSq cx cy) t a
      set r := closestOf (distSq cx cy) a t with hrdef
      have hrmem : r ∈ a :: t := by
        rcases hdec with he | ⟨l1, l2, hs, _, _⟩
        · rw [he]; exact List.mem_cons_self _ _
        · rw [hs]
          exact List.mem_cons_of_mem a
            (List.mem_append_right l1 (List.mem_cons_self _ _))
      have hrfil : r ∈ cands.filter (fun p => decide (hoverAccept cx cy p)) := by
        have hh2 : cands.filter (fun p => decide (hoverAccept cx cy p)) = a :: t := hh
        rw [hh2]
        exact hrmem
      have h2 : r ∈ cands ∧ hoverAccept cx cy r := by
        rw [List.mem_filter] at hrfil
        exact ⟨hrfil.1, of_decide_eq_true hrfil.2⟩
      refine ⟨h2.1, h2.2, ?_, ?_⟩
      · intro p hp
        rcases List.mem_cons.mp hp with h | h
        · rw [h]; exact m1
        · exact m2 p h
      · rcases hdec with he | ⟨l1, l2, hs, hlt, hstrict⟩
        · refine ⟨[], t, ?_, by simp⟩
          rw [he]
          rfl
        · refine ⟨a :: l1, l2, ?_, ?_⟩
          · rw [List.cons_append, ← hs]
          · intro p hp
            rcases List.mem_cons.mp hp with h | h
            · rw [h]; exact hlt
            · exact hstrict p h

/-- Witness for C6: a cursor inside a single registered box resolves to that box. -/
theorem resolveHover_spec_witness :
    boxDemo ∈ [boxDemo] ∧ hoverAccept 5 5 boxDemo :=
  have h : resolveHover 5 5 [boxDemo] = some boxDemo := by
    norm_num [resolveHover, hoverStep, boxDemo, pointWithin, withinRadius, distSq]
  have hs := (resolveHover_spec 5 5 [boxDemo]).2 boxDemo h
  ⟨hs.1, hs.2.1⟩

end CsemAA
